import Mathlib

/-!
Shallow embedding of src/Job_Search.py.

Strings are modelled as List Char. Character classes of Python's re module
(\d, \w, \s) are modelled over ASCII via Char.isDigit, Char.isAlphanum / '_',
and Char.isWhitespace; Python's classes additionally cover some non-ASCII
code points, which none of the verified claims rely on.
-/

namespace JobSearch

/-- Word character for the regex word-boundary assertion: models Python's
regex class of word characters over ASCII (letter, digit or underscore). -/
def isWordChar (c : Char) : Bool := c.isAlphanum || c == '_'

/-- Numeric value of a digit string; models Python int applied to a string
of decimal digits (as produced by the regex matches below). -/
def strToNat (s : List Char) : Nat :=
  s.foldl (fun a c => a * 10 + (c.toNat - '0'.toNat)) 0

/-- Models Python str.strip with no argument: removes leading and trailing
whitespace. -/
def pyStrip (s : List Char) : List Char :=
  ((s.dropWhile Char.isWhitespace).reverse.dropWhile Char.isWhitespace).reverse

/-!
The regex used by filter_numbers is (in raw form, alternation written @@):

  \b\d+\+?  @@  \b\d+\s*-\s*\d+\b

The scanner tries the pattern at each position left to right; at a position
the first alternative is tried before the second.  Both quantifiers are
greedy, and no backtracking into \d+ or \s* can ever extend a failed
attempt (a shortened digit run is followed by a digit, which neither the
literal '-' nor \s* accepts; a shortened whitespace run is followed by a
whitespace character, which the literal '-' does not accept), so the
greedy, non-backtracking matchers below are exact.

prevIsWord records whether the character just before the current position
is a word character; since both alternatives begin with \b followed by \d
(a word character), the boundary assertion holds exactly when prevIsWord
is false.
-/

/-- First regex alternative at the current position. -/
def matchAlt1 (prevIsWord : Bool) (s : List Char) : Option (List Char) :=
  if prevIsWord then none
  else if s.takeWhile Char.isDigit = [] then none
  else
    match s.drop (s.takeWhile Char.isDigit).length with
    | '+' :: _ => some (s.takeWhile Char.isDigit ++ ['+'])
    | _ => some (s.takeWhile Char.isDigit)

/-- Second regex alternative at the current position. -/
def matchAlt2 (prevIsWord : Bool) (s : List Char) : Option (List Char) :=
  if prevIsWord then none
  else if s.takeWhile Char.isDigit = [] then none
  else
    let ds1 := s.takeWhile Char.isDigit
    let r1 := s.drop ds1.length
    let ws1 := r1.takeWhile Char.isWhitespace
    match r1.drop ws1.length with
    | '-' :: r3 =>
      let ws2 := r3.takeWhile Char.isWhitespace
      let r4 := r3.drop ws2.length
      let ds2 := r4.takeWhile Char.isDigit
      if ds2 = [] then none
      else
        match r4.drop ds2.length with
        | [] => some (ds1 ++ ws1 ++ '-' :: ws2 ++ ds2)
        | c :: _ =>
          if isWordChar c then none else some (ds1 ++ ws1 ++ '-' :: ws2 ++ ds2)
    | _ => none

/-- The whole pattern at the current position: the first alternative is
preferred, the second is consulted only if the first fails. -/
def matchHere (prevIsWord : Bool) (s : List Char) : Option (List Char) :=
  match matchAlt1 prevIsWord s with
  | some m => some m
  | none => matchAlt2 prevIsWord s

/-- First match of the pattern in the text, scanning positions left to
right.  filter_numbers consumes re.findall only through its emptiness test
and its first element, and findall is empty exactly when there is no first
match, so this function is the part of findall the program observes. -/
def firstMatch (prevIsWord : Bool) : List Char → Option (List Char)
  | [] => none
  | c :: rest =>
    match matchHere prevIsWord (c :: rest) with
    | some m => some m
    | none => firstMatch (isWordChar c) rest

/-- Value extracted from the selected match, following the source line:
int(match.split('-')[0].strip() if '-' in match else
    match.replace('+', '').strip()). -/
def matchValue (m : List Char) : Nat :=
  if m.contains '-' then strToNat (pyStrip (m.takeWhile (fun c => c != '-')))
  else strToNat (pyStrip (m.filter (fun c => c != '+')))

/-- filter_numbers from src/Job_Search.py: first match of the pattern in
the text (0 when there is none), turned into a number by matchValue. -/
def filter_numbers (text : List Char) : Nat :=
  match firstMatch false text with
  | none => 0
  | some m => matchValue m

/-- Models Python int(s) for ASCII input: surrounding whitespace is
ignored, then an optional sign followed by one or more decimal digits;
anything else raises ValueError, modelled as none.  (Python additionally
accepts underscore digit-group separators and non-ASCII digits, which no
claim involves.) -/
def digitsVal (ds : List Char) : Option Nat :=
  if ds ≠ [] ∧ ds.all Char.isDigit then some (strToNat ds) else none

def parsePyInt (s : List Char) : Option Int :=
  match pyStrip s with
  | '+' :: ds => (digitsVal ds).map Int.ofNat
  | '-' :: ds => (digitsVal ds).map (fun n => -(Int.ofNat n))
  | ds => (digitsVal ds).map Int.ofNat

/-- The fixed prompt built by estimate_experience around the description. -/
def promptHead : List Char :=
  ("\n    You are an intelligent job experience provider. Provide the minimum experience required for the job described below in years (only the number):\n    Job Description: ").toList

def promptTail : List Char := ("\n    ").toList

def promptFor (description : List Char) : List Char :=
  promptHead ++ description ++ promptTail

/-- estimate_experience from src/Job_Search.py.  The generative-text
provider is external; it is modelled as a function from the prompt to the
response text.  The response's trimmed text is parsed as an integer
(int raising ValueError is modelled by parsePyInt returning none); on
failure the raw response text goes through filter_numbers. -/
def estimate_experience (model : List Char → List Char) (description : List Char) : Int :=
  match parsePyInt (pyStrip (model (promptFor description))) with
  | some n => n
  | none => Int.ofNat (filter_numbers (model (promptFor description)))

/-- Models str.split(sep) for a one-character separator: the pieces of the
string between occurrences of the separator (never an empty list). -/
def splitOnChar (sep : Char) (s : List Char) : List (List Char) :=
  s.foldr
    (fun c acc =>
      match acc with
      | [] => [[c]]
      | a :: as => if c = sep then [] :: a :: as else (c :: a) :: as)
    [[]]

/-- Models s.split(sep)[-1]: the last piece (the whole string when the
separator does not occur). -/
def lastSegment (sep : Char) (s : List Char) : List Char :=
  (splitOnChar sep s).getLastD []

/-- JobDetail: the provider's job-detail structure as far as job_search
reads it.  Each of the four nested dictionary paths
  companyDetails -> ...WebCompactJobPostingCompany -> companyResolutionResult -> name
  applyMethod -> ...OffsiteApply -> companyApplyUrl
  description -> text
  title
may be absent (a lookup then raises, caught per job), modelled by Option;
trackingUrn is the summary field the fetch and persistence stages split. -/
structure JobDetail where
  trackingUrn : List Char
  companyName : Option (List Char)
  applyUrl : Option (List Char)
  descriptionText : Option (List Char)
  title : Option (List Char)
deriving DecidableEq

/-- JobSummary: provider handle consumed by the fetch stage; the only
field the source reads is trackingUrn. -/
structure JobSummary where
  trackingUrn : List Char
deriving DecidableEq

/-- fetch_job_data from src/Job_Search.py: resolves the job identifier
from the summary's trackingUrn and fetches the detail.  The remote
provider call (api.get_job via get_job_details) may raise, modelled by
Except. -/
def fetch_job_data (fetch : List Char → Except (List Char) JobDetail)
    (job : JobSummary) : Except (List Char) JobDetail :=
  fetch (lastSegment ':' job.trackingUrn)

/-- parallel_job_search from src/Job_Search.py:
list(executor.map(lambda job: fetch_job_data(api, job), jobs)).
executor.map yields results in input order and re-raises a task's
exception when its result is collected, so the whole call raises at the
first failing job (in input order) and every collected result of the
batch is discarded; modelled by mapM in the Except monad. -/
def parallel_job_search (fetch : List Char → Except (List Char) JobDetail)
    (jobs : List JobSummary) : Except (List Char) (List JobDetail) :=
  jobs.mapM (fetch_job_data fetch)

/-- State of the functools.lru_cache(maxsize=1000) on get_job_details,
most recently used entry first, keyed by the resolved job identifier
(the api handle, the other cache key, is fixed for the whole run). -/
structure LruCache where
  entries : List (List Char × JobDetail)
deriving DecidableEq

/-- Result of one get_job_details invocation: the returned detail, the
cache state afterwards, and how many underlying remote provider calls
the invocation performed. -/
structure FetchResult where
  value : JobDetail
  cache : LruCache
  remoteCalls : Nat
deriving DecidableEq

/-- get_job_details from src/Job_Search.py under its lru_cache(1000)
decorator: a hit returns the cached detail, moves the entry to the front
and makes no remote call; a miss calls api.get_job once, inserts the
result at the front and drops beyond 1000 entries (evicting the least
recently used). -/
def get_job_details (api : List Char → JobDetail) (cache : LruCache)
    (job_id : List Char) : FetchResult :=
  match cache.entries.find? (fun e => e.1 == job_id) with
  | some e =>
    ⟨e.2, ⟨(job_id, e.2) :: cache.entries.filter (fun e2 => !(e2.1 == job_id))⟩, 0⟩
  | none =>
    ⟨api job_id, ⟨((job_id, api job_id) :: cache.entries).take 1000⟩, 1⟩

/-- JobRecord: one tuple of the batch insert, in the column order of the
INSERT statement (Id, Url, Role, company, description, Experience,
JobType). -/
structure JobRecord where
  id : Int
  url : List Char
  role : List Char
  company : List Char
  description : List Char
  experience : Int
  jobType : Int
deriving DecidableEq

/-- Connection to the relational store.  The store itself is an external
collaborator (spec section 6): one table whose Id column is the integer
primary key, reached through a connection holding committed rows plus the
statements staged since the last commit. -/
structure Connection where
  committed : List JobRecord
  staged : List JobRecord
deriving DecidableEq

/-- Primary-key check of the store for a batch of tuples: true when no
tuple's Id collides with an existing row or with an earlier tuple of the
same batch. -/
def pkOk : List Int → List JobRecord → Bool
  | _, [] => true
  | existing, r :: rest => !(existing.contains r.id) && pkOk (r.id :: existing) rest

/-- batch_insert_jobs from src/Job_Search.py: cursor.executemany of the
parameterized INSERT followed by connection.commit(), both inside try.
The store is modelled transactionally, as spec section 6 and the claim
assume: a failing executemany (primary-key violation) inserts nothing,
the except branch only prints, and commit is never reached, so the
connection is unchanged; on success every staged tuple is committed. -/
def batch_insert_jobs (conn : Connection) (job_data_batch : List JobRecord) : Connection :=
  if pkOk ((conn.committed ++ conn.staged).map (fun r => r.id)) job_data_batch then
    { committed := conn.committed ++ conn.staged ++ job_data_batch, staged := [] }
  else conn

/-- The four nested field lookups of job_search, in source order; the
first absent path raises, caught by the per-job except branch. -/
def extractFields (job : JobDetail) :
    Option (List Char × List Char × List Char × List Char) :=
  match job.companyName, job.applyUrl, job.descriptionText, job.title with
  | some cn, some u, some d, some t => some (cn, u, d, t)
  | _, _, _, _ => none

/-- Body of the per-job try block of job_search: extract the four fields,
estimate the experience, and when it is at most 1 build the tuple
(int(trackingUrn.split(':')[-1]), url, title, company, description,
experience, job_type).  Any failure inside the block (absent field, or
int raising on a non-numeric identifier segment) skips the job, giving
none. -/
def processJob (model : List Char → List Char) (job_type : Int)
    (job : JobDetail) : Option JobRecord :=
  match extractFields job with
  | none => none
  | some (cn, u, d, t) =>
    if estimate_experience model d ≤ 1 then
      match parsePyInt (lastSegment ':' job.trackingUrn) with
      | some idv => some ⟨idv, u, t, cn, d, estimate_experience model d, job_type⟩
      | none => none
    else none

/-- The job_data_batch list built by job_search's loop over the fetched
details. -/
def job_search_batch (model : List Char → List Char) (job_type : Int)
    (job_details : List JobDetail) : List JobRecord :=
  job_details.filterMap (processJob model job_type)

/-- job_search from src/Job_Search.py, starting from the already fetched
details: build the batch and, when it is nonempty, run the batch insert. -/
def job_search (model : List Char → List Char) (conn : Connection)
    (job_type : Int) (job_details : List JobDetail) : Connection :=
  let batch := job_search_batch model job_type job_details
  if batch = [] then conn else batch_insert_jobs conn batch

/-!
Functions written from the words of claims C10 and C2 (not from the
source), for the refinement comparisons.
-/

/-- Written from claim C10's words: the value of the first maximal digit
run in the text, a trailing '+' stripped (which cannot change the numeric
value of a digit run), or 0 if there is none.  No word-boundary condition. -/
def firstDigitRun : List Char → Nat
  | [] => 0
  | c :: rest =>
    if c.isDigit then strToNat ((c :: rest).takeWhile Char.isDigit)
    else firstDigitRun rest

/-- Amended simple description of filter_numbers: the value of the first
maximal digit run that starts at a word boundary, i.e. at the start of
the text or right after a non-word character (trailing '+' stripped, which
cannot change the numeric value), or 0 if there is none.  prevIsWord
records whether the previous character is a word character; the initial
call passes false. -/
def firstBoundaryRun (prevIsWord : Bool) : List Char → Nat
  | [] => 0
  | c :: rest =>
    if !prevIsWord && c.isDigit then strToNat ((c :: rest).takeWhile Char.isDigit)
    else firstBoundaryRun (isWordChar c) rest

/-!
Helper lemmas about characters, lists and the regex model.
-/

theorem not_ws_of_digit {c : Char} (h : c.isDigit = true) : c.isWhitespace = false := by
  cases hw : c.isWhitespace with
  | false => rfl
  | true =>
    exfalso
    have hw' : ((c = ' ' ∨ c = '\t') ∨ c = '\r') ∨ c = '\n' := by
      simpa [Char.isWhitespace] using hw
    rcases hw' with ((rfl | rfl) | rfl) | rfl <;> exact absurd h (by decide)

theorem dash_beq_false_of_digit {c : Char} (h : c.isDigit = true) :
    (('-' : Char) == c) = false := by
  rw [beq_eq_false_iff_ne]
  intro he
  rw [← he] at h
  exact absurd h (by decide)

theorem bne_plus_of_digit {c : Char} (h : c.isDigit = true) : (c != '+') = true := by
  simp only [bne, Bool.not_eq_true', beq_eq_false_iff_ne]
  intro he
  rw [he] at h
  exact absurd h (by decide)

theorem contains_eq_false_of {d : Char} :
    ∀ {l : List Char}, (∀ c ∈ l, (d == c) = false) → l.contains d = false
  | [], _ => rfl
  | c :: t, h => by
    rw [List.contains_cons, h c (List.mem_cons_self c t), Bool.false_or]
    exact contains_eq_false_of (fun x hx => h x (List.mem_cons_of_mem _ hx))

theorem dropWhile_eq_self_of {p : Char → Bool} {l : List Char}
    (h : ∀ c ∈ l, p c = false) : l.dropWhile p = l := by
  cases l with
  | nil => rfl
  | cons a t =>
    exact List.dropWhile_cons_of_neg (by simp [h a (List.mem_cons_self a t)])

theorem pyStrip_eq_self_of_digit {l : List Char} (h : ∀ c ∈ l, c.isDigit = true) :
    pyStrip l = l := by
  have h1 : ∀ c ∈ l, c.isWhitespace = false := fun c hc => not_ws_of_digit (h c hc)
  unfold pyStrip
  rw [dropWhile_eq_self_of h1,
    dropWhile_eq_self_of (fun c hc => h1 c (List.mem_reverse.mp hc)),
    List.reverse_reverse]

theorem filter_ne_plus_of_digit {l : List Char} (h : ∀ c ∈ l, c.isDigit = true) :
    l.filter (fun c => c != '+') = l :=
  List.filter_eq_self.mpr (fun a ha => bne_plus_of_digit (h a ha))

theorem takeWhile_append_of_all {p : Char → Bool} :
    ∀ {l1 : List Char} (l2 : List Char), (∀ c ∈ l1, p c = true) →
      (l1 ++ l2).takeWhile p = l1 ++ l2.takeWhile p
  | [], l2, _ => by simp
  | a :: t, l2, h => by
    rw [List.cons_append, List.takeWhile_cons_of_pos (h a (List.mem_cons_self a t)),
      takeWhile_append_of_all l2 (fun c hc => h c (List.mem_cons_of_mem _ hc)),
      List.cons_append]

theorem takeWhile_digits_all {s : List Char} :
    ∀ c ∈ s.takeWhile Char.isDigit, c.isDigit = true :=
  fun _ hc => List.mem_takeWhile_imp hc

theorem matchValue_digits {ds : List Char} (h : ∀ c ∈ ds, c.isDigit = true) :
    matchValue ds = strToNat ds := by
  have hc : ds.contains '-' = false :=
    contains_eq_false_of (fun c hcm => dash_beq_false_of_digit (h c hcm))
  unfold matchValue
  rw [if_neg (by rw [hc]; exact Bool.false_ne_true), filter_ne_plus_of_digit h,
    pyStrip_eq_self_of_digit h]

theorem matchValue_digits_plus {ds : List Char} (h : ∀ c ∈ ds, c.isDigit = true) :
    matchValue (ds ++ ['+']) = strToNat ds := by
  have hc : (ds ++ ['+']).contains '-' = false := by
    refine contains_eq_false_of (fun c hcm => ?_)
    rcases List.mem_append.mp hcm with h1 | h1
    · exact dash_beq_false_of_digit (h c h1)
    · rw [List.mem_singleton.mp h1]; decide
  have hplus : (['+'] : List Char).filter (fun c => c != '+') = [] := by decide
  unfold matchValue
  rw [if_neg (by rw [hc]; exact Bool.false_ne_true), List.filter_append,
    filter_ne_plus_of_digit h, hplus, List.append_nil, pyStrip_eq_self_of_digit h]

theorem matchAlt1_of_digit {c : Char} (rest : List Char) (hc : c.isDigit = true) :
    matchAlt1 false (c :: rest) = some ((c :: rest).takeWhile Char.isDigit) ∨
    matchAlt1 false (c :: rest) = some ((c :: rest).takeWhile Char.isDigit ++ ['+']) := by
  have hne : (c :: rest).takeWhile Char.isDigit ≠ [] := by
    rw [List.takeWhile_cons_of_pos hc]
    exact List.cons_ne_nil _ _
  unfold matchAlt1
  rw [if_neg (by simp), if_neg hne]
  split
  · right; rfl
  · left; rfl

theorem matchAlt1_some {b : Bool} {s m : List Char} (h : matchAlt1 b s = some m) :
    m = s.takeWhile Char.isDigit ∨ m = s.takeWhile Char.isDigit ++ ['+'] := by
  unfold matchAlt1 at h
  by_cases hb : b = true
  · rw [if_pos hb] at h; exact absurd h (by simp)
  · rw [if_neg hb] at h
    by_cases ht : s.takeWhile Char.isDigit = []
    · rw [if_pos ht] at h; exact absurd h (by simp)
    · rw [if_neg ht] at h
      split at h
      · right; exact (Option.some.inj h).symm
      · left; exact (Option.some.inj h).symm

theorem matchAlt2_none_of_no_digit {b : Bool} {s : List Char}
    (h : s.takeWhile Char.isDigit = []) : matchAlt2 b s = none := by
  cases b <;> simp [matchAlt2, h]

theorem matchAlt2_none_of_alt1_none {b : Bool} {s : List Char}
    (h : matchAlt1 b s = none) : matchAlt2 b s = none := by
  unfold matchAlt1 at h
  by_cases hb : b = true
  · subst hb; simp [matchAlt2]
  · rw [if_neg hb] at h
    by_cases ht : s.takeWhile Char.isDigit = []
    · exact matchAlt2_none_of_no_digit ht
    · rw [if_neg ht] at h
      split at h <;> exact absurd h (by simp)

theorem matchHere_some_inv {b : Bool} {s m : List Char} (h : matchHere b s = some m) :
    matchAlt1 b s = some m := by
  unfold matchHere at h
  cases halt : matchAlt1 b s with
  | some m' =>
    rw [halt] at h
    simpa using h
  | none =>
    rw [halt, matchAlt2_none_of_alt1_none halt] at h
    exact absurd h (by simp)

theorem matchHere_none_of {b : Bool} {c : Char} (rest : List Char)
    (h : b = true ∨ c.isDigit = false) : matchHere b (c :: rest) = none := by
  rcases h with rfl | h
  · simp [matchHere, matchAlt1, matchAlt2]
  · have ht : (c :: rest).takeWhile Char.isDigit = [] :=
      List.takeWhile_cons_of_neg (by simp [h])
    cases b <;> simp [matchHere, matchAlt1, matchAlt2, ht]

theorem matchHere_of_digit {c : Char} (rest : List Char) (hc : c.isDigit = true) :
    matchHere false (c :: rest) = some ((c :: rest).takeWhile Char.isDigit) ∨
    matchHere false (c :: rest) = some ((c :: rest).takeWhile Char.isDigit ++ ['+']) := by
  rcases matchAlt1_of_digit rest hc with h1 | h1 <;>
    · unfold matchHere
      rw [h1]
      simp [h1]

theorem firstMatch_no_dash {m : List Char} :
    ∀ {s : List Char} {b : Bool}, firstMatch b s = some m → m.contains '-' = false := by
  intro s
  induction s with
  | nil => intro b h; exact absurd h (by simp [firstMatch])
  | cons c rest ih =>
    intro b h
    unfold firstMatch at h
    cases hmh : matchHere b (c :: rest) with
    | none => rw [hmh] at h; exact ih h
    | some m' =>
      rw [hmh] at h
      have hm : m' = m := by simpa using h
      subst hm
      rcases matchAlt1_some (matchHere_some_inv hmh) with rfl | rfl
      · exact contains_eq_false_of
          (fun c hcm => dash_beq_false_of_digit (takeWhile_digits_all c hcm))
      · refine contains_eq_false_of (fun x hcm => ?_)
        rcases List.mem_append.mp hcm with h1 | h1
        · exact dash_beq_false_of_digit (takeWhile_digits_all x h1)
        · rw [List.mem_singleton.mp h1]; decide

theorem firstMatch_value_eq_run :
    ∀ (s : List Char) (b : Bool),
      (match firstMatch b s with
       | none => 0
       | some m => matchValue m) = firstBoundaryRun b s := by
  intro s
  induction s with
  | nil => intro b; rfl
  | cons c rest ih =>
    intro b
    by_cases hb : (!b && c.isDigit) = true
    · have hb' : b = false ∧ c.isDigit = true := by simpa using hb
      obtain ⟨hb1, hc⟩ := hb'
      subst hb1
      rcases matchHere_of_digit rest hc with hm | hm
      · simp only [firstMatch, hm, firstBoundaryRun, if_pos hb]
        exact matchValue_digits takeWhile_digits_all
      · simp only [firstMatch, hm, firstBoundaryRun, if_pos hb]
        exact matchValue_digits_plus takeWhile_digits_all
    · have hcase : b = true ∨ c.isDigit = false := by
        cases b
        · right
          cases hd : c.isDigit
          · rfl
          · exact absurd (by simp [hd] : (!false && c.isDigit) = true) hb
        · left; rfl
      have hn := matchHere_none_of rest hcase
      simp only [firstMatch, hn, firstBoundaryRun, if_neg hb]
      exact ih (isWordChar c)

theorem filter_numbers_eq_scan (text : List Char) :
    filter_numbers text = firstBoundaryRun false text :=
  firstMatch_value_eq_run text false

theorem run_no_digits :
    ∀ {l : List Char} (b : Bool), (∀ c ∈ l, c.isDigit = false) →
      firstBoundaryRun b l = 0
  | [], _, _ => rfl
  | c :: t, b, h => by
    have hc : c.isDigit = false := h c (List.mem_cons_self c t)
    rw [firstBoundaryRun, if_neg (by simp [hc])]
    exact run_no_digits (isWordChar c) (fun x hx => h x (List.mem_cons_of_mem _ hx))

theorem run_append_no_digits :
    ∀ {pre : List Char} (b : Bool) (s : List Char), (∀ c ∈ pre, c.isDigit = false) →
      firstBoundaryRun b (pre ++ s) =
        firstBoundaryRun (pre.foldl (fun _ c => isWordChar c) b) s
  | [], _, _, _ => rfl
  | c :: t, b, s, h => by
    have hc : c.isDigit = false := h c (List.mem_cons_self c t)
    rw [List.cons_append, firstBoundaryRun, if_neg (by simp [hc]), List.foldl_cons]
    exact run_append_no_digits (isWordChar c) s (fun x hx => h x (List.mem_cons_of_mem _ hx))

theorem run_digits_head {ds rest : List Char} (h1 : ds ≠ [])
    (h2 : ∀ c ∈ ds, c.isDigit = true) :
    firstBoundaryRun false (ds ++ '-' :: rest) = strToNat ds := by
  cases ds with
  | nil => exact absurd rfl h1
  | cons d dt =>
    have hd : d.isDigit = true := h2 d (List.mem_cons_self d dt)
    rw [List.cons_append, firstBoundaryRun, if_pos (by simp [hd]), ← List.cons_append,
      takeWhile_append_of_all _ h2, List.takeWhile_cons_of_neg (by decide),
      List.append_nil]

/-!
Claim theorems.
-/

/-- C9: for every description text containing no digits, the regex fallback
extractor filter_numbers returns 0, the no-numeric-pattern default. -/
theorem c9_no_digits_returns_zero (text : List Char)
    (h : ∀ c ∈ text, c.isDigit = false) : filter_numbers text = 0 := by
  rw [filter_numbers_eq_scan]
  exact run_no_digits false h

/-- Witness for C9 at the digit-free text "no digits here at all". -/
theorem c9_no_digits_returns_zero_witness :
    filter_numbers ("no digits here at all".toList) = 0 :=
  c9_no_digits_returns_zero ("no digits here at all".toList) (by decide)

/-- C2 counterexample: the text "7 and 3-5 years" contains the range
pattern 3-5 with 3 < 5, yet filter_numbers returns 7 (the earlier bare
integer), not the lower bound 3. -/
theorem c2_counterexample :
    filter_numbers ("7 and 3-5 years".toList) = 7 ∧
      filter_numbers ("7 and 3-5 years".toList) ≠ 3 := by
  constructor <;> decide

/-- C2 amended: when the digit run N of an occurrence N-M is the first
digit run of the text sitting at a word boundary (nothing before it
contains a digit, and the character just before it, if any, is not a word
character), filter_numbers returns N. -/
theorem c2_amended_first_range (pre ds rest : List Char)
    (h1 : ∀ c ∈ pre, c.isDigit = false)
    (h2 : pre.foldl (fun _ c => isWordChar c) false = false)
    (h3 : ds ≠ []) (h4 : ∀ c ∈ ds, c.isDigit = true) :
    filter_numbers (pre ++ ds ++ '-' :: rest) = strToNat ds := by
  rw [filter_numbers_eq_scan, List.append_assoc,
    run_append_no_digits false (ds ++ '-' :: rest) h1, h2, run_digits_head h3 h4]

/-- Witness for amended C2: the end-to-end scenario text of the spec,
"Minimum 3-5 years experience required", yields 3. -/
theorem c2_amended_first_range_witness :
    filter_numbers ("Minimum 3-5 years experience required".toList) = 3 := by
  have e : "Minimum 3-5 years experience required".toList =
      "Minimum ".toList ++ "3".toList ++ '-' :: "5 years experience required".toList := by
    decide
  rw [e, c2_amended_first_range ("Minimum ".toList) ("3".toList)
    ("5 years experience required".toList) (by decide) (by decide) (by decide) (by decide)]
  decide

/-- C10 counterexample: on the text "a3" filter_numbers returns 0 (the
digit run is preceded by a word character, so the word boundary fails),
while the claimed simpler function, first maximal digit run anywhere,
returns 3. -/
theorem c10_counterexample :
    filter_numbers ("a3".toList) ≠ firstDigitRun ("a3".toList) := by decide

/-- C10 amended: filter_numbers equals the simple scan returning the first
maximal digit run that starts at a word boundary (trailing plus stripped,
which does not change the value), or 0 if there is none; and the selected
match never contains a dash, so the range alternative never produces it
and the dash-splitting branch is unreachable. -/
theorem c10_amended_boundary_run (text : List Char) :
    filter_numbers text = firstBoundaryRun false text ∧
      ∀ m, firstMatch false text = some m → m.contains '-' = false :=
  ⟨filter_numbers_eq_scan text, fun _ h => firstMatch_no_dash h⟩

/-- Witness for amended C10 at the text "3-5", whose first match is the
bare integer 3. -/
theorem c10_amended_boundary_run_witness :
    filter_numbers ("3-5".toList) = firstBoundaryRun false ("3-5".toList) ∧
      ("3".toList).contains '-' = false :=
  ⟨(c10_amended_boundary_run ("3-5".toList)).1,
    (c10_amended_boundary_run ("3-5".toList)).2 ("3".toList) (by decide)⟩

/-- C4 counterexample: when the provider's response is the text -3, the
direct parse succeeds with a negative integer and estimate_experience
returns -3, which is negative. -/
theorem c4_counterexample :
    estimate_experience (fun _ => "-3".toList) ("any description".toList) = -3 ∧
      estimate_experience (fun _ => "-3".toList) ("any description".toList) < 0 := by
  constructor <;> decide

/-- C4 amended: whenever the direct integer parse of the trimmed response
fails (the regex-fallback path), estimate_experience returns a
non-negative integer; the direct-parse path instead returns exactly the
parsed integer, which can be negative. -/
theorem c4_amended_fallback_nonneg (model : List Char → List Char)
    (description : List Char)
    (h : parsePyInt (pyStrip (model (promptFor description))) = none) :
    0 ≤ estimate_experience model description := by
  unfold estimate_experience
  rw [h]
  exact Int.ofNat_nonneg _

/-- Witness for amended C4: a response with no parseable integer takes the
fallback path and the estimate is non-negative. -/
theorem c4_amended_fallback_nonneg_witness :
    0 ≤ estimate_experience (fun _ => "no number".toList) ("d".toList) :=
  c4_amended_fallback_nonneg (fun _ => "no number".toList) ("d".toList) (by decide)

/-- C7: estimate_experience first parses the trimmed response directly as
an integer and returns it on success; only when that parse fails does it
invoke the regex fallback filter_numbers on the raw response text. -/
theorem c7_direct_parse_first (model : List Char → List Char) (description : List Char) :
    (∀ n : Int, parsePyInt (pyStrip (model (promptFor description))) = some n →
      estimate_experience model description = n) ∧
    (parsePyInt (pyStrip (model (promptFor description))) = none →
      estimate_experience model description =
        Int.ofNat (filter_numbers (model (promptFor description)))) := by
  constructor
  · intro n h
    unfold estimate_experience
    rw [h]
  · intro h
    unfold estimate_experience
    rw [h]

/-- Witness for C7: the provider returning the exact text 1 makes the
estimator return 1 via the direct parse. -/
theorem c7_direct_parse_first_witness :
    estimate_experience (fun _ => "1".toList) ("d".toList) = 1 :=
  (c7_direct_parse_first (fun _ => "1".toList) ("d".toList)).1 1 (by decide)

theorem processJob_experience_le {model : List Char → List Char} {job_type : Int}
    {job : JobDetail} {r : JobRecord}
    (h : processJob model job_type job = some r) : r.experience ≤ 1 := by
  unfold processJob at h
  cases hext : extractFields job with
  | none =>
    simp only [hext] at h
    exact absurd h (by simp)
  | some q =>
    obtain ⟨cn, u, d, t⟩ := q
    simp only [hext] at h
    by_cases hexp : estimate_experience model d ≤ 1
    · rw [if_pos hexp] at h
      cases hurn : parsePyInt (lastSegment ':' job.trackingUrn) with
      | none =>
        simp only [hurn] at h
        exact absurd h (by simp)
      | some idv =>
        simp only [hurn] at h
        have hr := Option.some.inj h
        rw [← hr]
        exact hexp
    · rw [if_neg hexp] at h
      exact absurd h (by simp)

/-- C1: for a processed job detail whose four required fields are present
and whose trackingUrn identifier segment parses as an integer (so that a
JobRecord can be formed at all), a record is produced exactly when the
estimated experience is at most 1, any produced record lands in the
insert batch, and every record of the batch has experience at most 1:
experience at most 1 is the sole inclusion predicate. -/
theorem c1_experience_filter (model : List Char → List Char) (job_type : Int)
    (jobs : List JobDetail) (j : JobDetail) (hmem : j ∈ jobs)
    (cn u d t : List Char) (hext : extractFields j = some (cn, u, d, t))
    (idv : Int) (hurn : parsePyInt (lastSegment ':' j.trackingUrn) = some idv) :
    (∀ r ∈ job_search_batch model job_type jobs, r.experience ≤ 1) ∧
    ((processJob model job_type j).isSome ↔ estimate_experience model d ≤ 1) ∧
    (∀ r, processJob model job_type j = some r →
      r ∈ job_search_batch model job_type jobs) := by
  refine ⟨?_, ?_, ?_⟩
  · intro r hr
    obtain ⟨a, _, ha⟩ := List.mem_filterMap.mp hr
    exact processJob_experience_le ha
  · simp only [processJob, hext]
    by_cases hexp : estimate_experience model d ≤ 1
    · simp only [if_pos hexp, hurn]
      simp [hexp]
    · simp only [if_neg hexp]
      simp [hexp]
  · intro r hr
    exact List.mem_filterMap.mpr ⟨j, hmem, hr⟩

/-- Witness for C1: a well-formed job whose description is estimated at 0
years yields a record that is in the insert batch. -/
theorem c1_experience_filter_witness :
    (⟨123, "u".toList, "T".toList, "A".toList, "d".toList, 0, 1⟩ : JobRecord) ∈
      job_search_batch (fun _ => "0".toList) 1
        [⟨"urn:li:jobPosting:123".toList, some ("A".toList), some ("u".toList),
          some ("d".toList), some ("T".toList)⟩] :=
  (c1_experience_filter (fun _ => "0".toList) 1
    [⟨"urn:li:jobPosting:123".toList, some ("A".toList), some ("u".toList),
      some ("d".toList), some ("T".toList)⟩]
    ⟨"urn:li:jobPosting:123".toList, some ("A".toList), some ("u".toList),
      some ("d".toList), some ("T".toList)⟩
    (by decide) ("A".toList) ("u".toList) ("d".toList) ("T".toList) (by decide)
    123 (by decide)).2.2
    ⟨123, "u".toList, "T".toList, "A".toList, "d".toList, 0, 1⟩ (by decide)

/-- C8: a job whose detail structure is missing a required nested field is
skipped, and the rest of the batch is processed exactly as if that job
were absent, both for the built batch and for the resulting connection
state. -/
theorem c8_missing_field_skips (model : List Char → List Char) (conn : Connection)
    (job_type : Int) (pre rest : List JobDetail) (j : JobDetail)
    (h : extractFields j = none) :
    job_search_batch model job_type (pre ++ j :: rest) =
      job_search_batch model job_type (pre ++ rest) ∧
    job_search model conn job_type (pre ++ j :: rest) =
      job_search model conn job_type (pre ++ rest) := by
  have hpj : processJob model job_type j = none := by
    unfold processJob
    rw [h]
  have hbatch : job_search_batch model job_type (pre ++ j :: rest) =
      job_search_batch model job_type (pre ++ rest) := by
    unfold job_search_batch
    simp only [List.filterMap_append, List.filterMap_cons, hpj]
  refine ⟨hbatch, ?_⟩
  unfold job_search
  rw [hbatch]

/-- Witness for C8: a job with a missing title is skipped; the batch over
the one-job list equals the batch over the empty list. -/
theorem c8_missing_field_skips_witness :
    job_search_batch (fun _ => "0".toList) 1
        [⟨"urn:1".toList, some ("A".toList), some ("u".toList), some ("d".toList), none⟩] =
      job_search_batch (fun _ => "0".toList) 1 [] :=
  (c8_missing_field_skips (fun _ => "0".toList) ⟨[], []⟩ 1 [] []
    ⟨"urn:1".toList, some ("A".toList), some ("u".toList), some ("d".toList), none⟩
    (by decide)).1

theorem find_self_cons (k : List Char) (v : JobDetail) (l : List (List Char × JobDetail)) :
    ((k, v) :: l).find? (fun e => e.1 == k) = some (k, v) := by
  simp [List.find?_cons]

theorem find_self_take (k : List Char) (v : JobDetail) (l : List (List Char × JobDetail)) :
    (((k, v) :: l).take 1000).find? (fun e => e.1 == k) = some (k, v) := by
  rw [show (1000 : Nat) = 999 + 1 from rfl, List.take_succ_cons]
  exact find_self_cons k v (l.take 999)

/-- C5: the first get_job_details invocation for an identifier performs at
most one remote call, and an immediately repeated invocation with the same
identifier is served from the memoization cache, performing none: two
consecutive invocations make at most one underlying remote call. -/
theorem c5_memoized_fetch (api : List Char → JobDetail) (cache : LruCache)
    (job_id : List Char) :
    (get_job_details api cache job_id).remoteCalls ≤ 1 ∧
    (get_job_details api (get_job_details api cache job_id).cache job_id).remoteCalls = 0 := by
  cases h : cache.entries.find? (fun e => e.1 == job_id) with
  | some e =>
    constructor
    · simp [get_job_details, h]
    · simp [get_job_details, h, find_self_cons]
  | none =>
    constructor
    · simp [get_job_details, h]
    · simp [get_job_details, h, find_self_take]

/-- C6: the batch insert is all-or-nothing per call: when the store
rejects the statement batch (a primary-key violation), commit is never
reached and the connection keeps exactly its previous rows; when it
accepts, all tuples are committed together. -/
theorem c6_batch_insert_atomic (conn : Connection) (batch : List JobRecord) :
    (pkOk ((conn.committed ++ conn.staged).map (fun r => r.id)) batch = false →
      batch_insert_jobs conn batch = conn) ∧
    (pkOk ((conn.committed ++ conn.staged).map (fun r => r.id)) batch = true →
      (batch_insert_jobs conn batch).committed =
        conn.committed ++ conn.staged ++ batch) := by
  constructor
  · intro h
    unfold batch_insert_jobs
    rw [if_neg (by rw [h]; exact Bool.false_ne_true)]
  · intro h
    unfold batch_insert_jobs
    rw [if_pos h]

/-- Witness for C6: inserting a tuple whose Id 1 already exists leaves the
connection unchanged: no row of the failed batch is persisted. -/
theorem c6_batch_insert_atomic_witness :
    batch_insert_jobs ⟨[⟨1, [], [], [], [], 0, 1⟩], []⟩ [⟨1, [], [], [], [], 0, 2⟩] =
      ⟨[⟨1, [], [], [], [], 0, 1⟩], []⟩ :=
  (c6_batch_insert_atomic ⟨[⟨1, [], [], [], [], 0, 1⟩], []⟩
    [⟨1, [], [], [], [], 0, 2⟩]).1 (by decide)

/-- C3 evaluation at the failing input: with a batch of two jobs whose
first fetch raises, parallel_job_search returns that error for the whole
batch, although the second job's fetch succeeds in isolation: one failing
fetch fails the whole parallel fetch and discards the batch's results. -/
theorem c3_error_fails_whole_batch :
    parallel_job_search
        (fun job_id =>
          if job_id = ("1".toList) then Except.error ("boom".toList)
          else Except.ok ⟨"urn:li:jobPosting:2".toList, none, none, none, none⟩)
        [⟨"urn:li:jobPosting:1".toList⟩, ⟨"urn:li:jobPosting:2".toList⟩] =
      Except.error ("boom".toList) ∧
    fetch_job_data
        (fun job_id =>
          if job_id = ("1".toList) then Except.error ("boom".toList)
          else Except.ok ⟨"urn:li:jobPosting:2".toList, none, none, none, none⟩)
        ⟨"urn:li:jobPosting:2".toList⟩ =
      Except.ok ⟨"urn:li:jobPosting:2".toList, none, none, none, none⟩ := by
  constructor <;> rfl

end JobSearch
